import Mathlib

/-!
Shallow embedding of the single-cell tokenization pipeline in
`src/data/amc_tokenise_v2.py` (functions `rank_genes`, `tokenize_cell`, and the
`TranscriptomeTokenizer` methods `tokenize_anndata`, `tokenize_files`,
`create_dataset`), together with theorems settling the specification claims.

Modelling conventions:
* expression values are rationals (`ℚ`); token ids are `Nat`; gene identifiers
  are `String`;
* the two pickle lookup tables become association lists;
* `np.argsort(-gene_vector)` is modelled as a deterministic comparison sort of
  the index range `0..n-1` by descending value (`List.insertionSort` with the
  flipped non-strict comparison);
* a sparse CSR row (`X_norm[i].data` / `X_norm[i].indices`) is modelled by the
  increasing list of indices of nonzero entries and the values at them;
* Python exceptions become the `Except` part of the result; the one-off
  fallback `print` of `tokenize_anndata` becomes a diagnostic counter.
-/

namespace AmcTokenise

/-- The two pickled lookup tables held by `TranscriptomeTokenizer`:
`gene_median_dict` (gene id → normalization factor) and `gene_token_dict`
(gene id → token id). -/
structure Catalog where
  gene_median_dict : List (String × ℚ)
  gene_token_dict : List (String × Nat)

/-- `self.gene_median_dict.get(g)`. -/
def Catalog.geneMedian (C : Catalog) (g : String) : Option ℚ :=
  List.lookup g C.gene_median_dict

/-- `self.gene_token_dict.get(g)`. -/
def Catalog.geneToken (C : Catalog) (g : String) : Option Nat :=
  List.lookup g C.gene_token_dict

/-- `self.genelist_dict.get(g, False)`: `genelist_dict` maps every key of
`gene_median_dict` to `True`, so this is membership in the median table. -/
def Catalog.eligible (C : Catalog) (g : String) : Bool :=
  (C.geneMedian g).isSome

/-- `self.gene_median_dict[g]`, read only at eligible genes (where the lookup
succeeds); the default is irrelevant there. -/
def Catalog.normFactor (C : Catalog) (g : String) : ℚ :=
  (C.geneMedian g).getD 1

/-- `self.gene_token_dict[g]`, read (in this pipeline) only at eligible genes;
the spec guarantees every eligible gene has a token by construction. -/
def Catalog.tokenOf (C : Catalog) (g : String) : Nat :=
  (C.geneToken g).getD 0

/-- The set of token ids assigned by the catalog (the values of
`gene_token_dict`). -/
def Catalog.tokenTable (C : Catalog) : List Nat :=
  C.gene_token_dict.map Prod.snd

/-- `np.argsort(-gene_vector)`: the indices `0..n-1` ordered by descending
value. Modelled as a deterministic comparison sort; out-of-range `getD`
defaults never fire on `List.range v.length`. -/
def argsortDesc (v : List ℚ) : List Nat :=
  List.insertionSort (fun i j => v.getD j 0 ≤ v.getD i 0) (List.range v.length)

/-- `rank_genes(gene_vector, gene_tokens)`:
`gene_tokens[np.argsort(-gene_vector)]`. -/
def rank_genes (gene_vector : List ℚ) (gene_tokens : List Nat) : List Nat :=
  (argsortDesc gene_vector).map (fun i => gene_tokens.getD i 0)

/-- `np.nonzero(gene_vector)[0]`: indices of nonzero entries, increasing. -/
def nonzeroIdx (v : List ℚ) : List Nat :=
  (List.range v.length).filter (fun i => decide (v.getD i 0 ≠ 0))

/-- `tokenize_cell(gene_vector, gene_tokens)`:
`rank_genes(gene_vector[nonzero_mask], gene_tokens[nonzero_mask])`. -/
def tokenize_cell (gene_vector : List ℚ) (gene_tokens : List Nat) : List Nat :=
  rank_genes ((nonzeroIdx gene_vector).map (fun i => gene_vector.getD i 0))
    ((nonzeroIdx gene_vector).map (fun i => gene_tokens.getD i 0))

/-- The h5ad matrix as `tokenize_anndata` reads it: `adata.var["ensembl_id"]`,
the raw expression rows `adata.X` (one row per cell), `adata.obs["n_counts"]`,
the optional `adata.obs["filter_pass"]` column, and the remaining per-cell
metadata columns of `adata.obs` keyed by attribute name. -/
structure AnnData where
  ensembl_id : List String
  X : List (List ℚ)
  n_counts : List ℚ
  filter_pass : Option (List ℚ)
  obs : List (String × List String)

/-- `coding_miRNA_loc`: `np.where([genelist_dict.get(i, False) for i in var["ensembl_id"]])[0]`,
the increasing list of eligible column indices. -/
def coding_miRNA_loc (C : Catalog) (gids : List String) : List Nat :=
  (List.range gids.length).filter (fun j => C.eligible (gids.getD j ""))

/-- `norm_factor_vector`: `[gene_median_dict[i] for i in var["ensembl_id"][coding_miRNA_loc]]`. -/
def norm_factor_vector (C : Catalog) (gids : List String) : List ℚ :=
  (coding_miRNA_loc C gids).map (fun j => C.normFactor (gids.getD j ""))

/-- `coding_miRNA_tokens`: `[gene_token_dict[i] for i in coding_miRNA_ids]`. -/
def coding_miRNA_tokens (C : Catalog) (gids : List String) : List Nat :=
  (coding_miRNA_loc C gids).map (fun j => C.tokenOf (gids.getD j ""))

/-- One row of `X_norm = X_view / n_counts * target_sum / norm_factor_vector`:
position `k` holds `X_view[k] / n * target_sum / norm_factor_vector[k]`, with
`X_view` the raw row restricted to the eligible columns `coding_miRNA_loc`
(the per-position division is fused into one map over the column indices). -/
def normRow (C : Catalog) (gids : List String) (raw : List ℚ) (n ts : ℚ) : List ℚ :=
  (coding_miRNA_loc C gids).map
    (fun j => raw.getD j 0 / n * ts / C.normFactor (gids.getD j ""))

/-- `rank_genes(X_norm[i].data, coding_miRNA_tokens[X_norm[i].indices])` for
cell `i`: in CSR form `.data` lists the nonzero entries of the normalized row
and `.indices` their positions in increasing order, so this is exactly
`tokenize_cell` of the normalized row against the aligned token vector. -/
def anndataCellTokens (C : Catalog) (A : AnnData) (ts : ℚ) (i : Nat) : List Nat :=
  tokenize_cell (normRow C A.ensembl_id (A.X.getD i []) (A.n_counts.getD i 0) ts)
    (coding_miRNA_tokens C A.ensembl_id)

/-- `filter_pass_loc`: `np.where([i == 1 for i in obs["filter_pass"]])[0]` when
the column exists, else `np.array(range(adata.shape[0]))` (all cells). -/
def filter_pass_loc (A : AnnData) : List Nat :=
  match A.filter_pass with
  | some fp => (List.range fp.length).filter (fun i => decide (fp.getD i 0 = 1))
  | none => List.range A.X.length

/-- Fuel-driven worker for `chunkList`; the fuel (initially the list length)
only forces termination and never runs out on the initial call. -/
def chunkGo (cs : Nat) : Nat → List α → List (List α)
  | 0, _ => []
  | _, [] => []
  | fuel + 1, a :: rest => (a :: rest.take (cs - 1)) :: chunkGo cs fuel (rest.drop (cs - 1))

/-- The slices `l[i:i+cs]` for `i in range(0, len(l), cs)` of the Python chunk
loop, for `cs ≥ 1` (Python raises on step 0; here `cs = 0` degenerates to
singleton chunks and is outside every claim). -/
def chunkList (cs : Nat) (l : List α) : List (List α) :=
  chunkGo cs l.length l

/-- Python `None`-able dict of per-cell metadata lists, keyed by attribute. -/
abbrev MetaDict := List (String × List String)

instance instDecEqExcept {ε α : Type} [DecidableEq ε] [DecidableEq α] :
    DecidableEq (Except ε α) := fun x y =>
  match x, y with
  | .ok a, .ok b =>
      if h : a = b then isTrue (by rw [h]) else isFalse (fun hh => h (Except.ok.inj hh))
  | .error a, .error b =>
      if h : a = b then isTrue (by rw [h]) else isFalse (fun hh => h (Except.error.inj hh))
  | .ok _, .error _ => isFalse (fun hh => Except.noConfusion hh)
  | .error _, .ok _ => isFalse (fun hh => Except.noConfusion hh)

/-- Result of one tokenization call: `diag` counts the fallback messages
printed (the `has no column attribute filter_pass` print), and `result` is the
returned pair or the exception the call raises. -/
structure TokResult where
  diag : Nat
  result : Except String (List (List Nat) × Option MetaDict)
deriving DecidableEq, Repr

/-- The exception text raised when `file_cell_metadata` is read unassigned. -/
def unboundLocalMsg : String :=
  "UnboundLocalError: local variable file_cell_metadata referenced before assignment"

/-- `adata[idx].obs[k]` as a column lookup; absent columns are irrelevant to
the claims and default to an empty column. -/
def obsColumn (A : AnnData) (k : String) : List String :=
  (List.lookup k A.obs).getD []

/-- `TranscriptomeTokenizer.tokenize_anndata`. `custom` is
`custom_attr_name_dict` as (input attribute key, output column name) pairs.
The chunk loop accumulates, per chunk `idx`, the per-cell token lists and (when
`custom` is set) the metadata rows of the chunk; with `custom = None`,
`file_cell_metadata` is assigned (to `None`) only inside the loop body, so a
loop that never runs leaves it unbound at the `return`. -/
def tokenize_anndata (C : Catalog) (A : AnnData) (custom : Option (List (String × String)))
    (target_sum : ℚ) (chunk_size : Nat) : TokResult :=
  let diag : Nat := match A.filter_pass with
    | some _ => 0
    | none => 1
  let chs := chunkList chunk_size (filter_pass_loc A)
  let tokenized_cells := chs.flatMap (fun idx => idx.map (anndataCellTokens C A target_sum))
  match custom with
  | some attrs =>
      let meta : MetaDict := attrs.map (fun kv =>
        (kv.1, chs.flatMap (fun idx => idx.map (fun i => (obsColumn A kv.1).getD i ""))))
      { diag := diag, result := .ok (tokenized_cells, some meta) }
  | none =>
      if chs.isEmpty then
        { diag := diag, result := .error unboundLocalMsg }
      else
        { diag := diag, result := .ok (tokenized_cells, none) }

/-- `tokenize_anndata`'s Python default `target_sum=10_000`. -/
def target_sum_default : ℚ := 10000

/-- `tokenize_anndata`'s Python default `chunk_size=512`. -/
def chunk_size_default : Nat := 512

/-- `TranscriptomeTokenizer.tokenize_files` (h5ad branch). `tokenized_cells`
is initialized to `[]`; the line extending it with `file_tokenized_cells` is
commented out in the source, so the first component of the returned pair stays
empty. When `custom` is set, `cell_metadata` renames each accumulated metadata
list from the input attribute key to the output column name. -/
def tokenize_files (C : Catalog) (A : AnnData)
    (custom : Option (List (String × String))) : TokResult :=
  let fileRes := tokenize_anndata C A custom target_sum_default chunk_size_default
  match fileRes.result with
  | .error e => { diag := fileRes.diag, result := .error e }
  | .ok (_file_tokenized_cells, file_cell_metadata) =>
      let cell_metadata : Option MetaDict :=
        match custom, file_cell_metadata with
        | some attrs, some fm =>
            some (attrs.map (fun kv => (kv.2, (List.lookup kv.1 fm).getD [])))
        | _, _ => none
      { diag := fileRes.diag, result := .ok ([], cell_metadata) }

/-- `format_cell_features` on one row, restricted to the two columns the
claims are about: crops `input_ids` to the first 2048 tokens and records the
post-crop `length`. -/
def format_cell_features (input_ids : List Nat) : List Nat × Nat :=
  let cropped := input_ids.take 2048
  (cropped, cropped.length)

/-- `create_dataset` restricted to the `input_ids` and `length` columns:
`output_dataset.map(format_cell_features)` applies the crop to every row and
drops none (metadata columns pass through unchanged and are omitted here). -/
def create_dataset (tokenized_cells : List (List Nat)) : List (List Nat × Nat) :=
  tokenized_cells.map format_cell_features

/-- The index permutation realized by `tokenize_cell`: the nonzero positions of
`v`, ordered by descending `v`-value. `tokenize_cell v toks` is the image of
this list under `toks`. -/
def cellRankIdx (v : List ℚ) : List Nat :=
  (argsortDesc ((nonzeroIdx v).map (fun i => v.getD i 0))).map
    (fun k => (nonzeroIdx v).getD k 0)

/-! Concrete fixtures used to instantiate the theorems. -/

/-- A one-gene catalog: gene `G1`, normalization factor 1, token 7. -/
def Ktest : Catalog := ⟨[("G1", 1)], [("G1", 7)]⟩

/-- A three-gene catalog with unit factors and tokens 4, 9, 2. -/
def KtestABC : Catalog := ⟨[("A", 1), ("B", 1), ("Cg", 1)], [("A", 4), ("B", 9), ("Cg", 2)]⟩

/-- One cell, raw count 3, total count 3, no `filter_pass` column. -/
def oneCellAnn : AnnData := ⟨["G1"], [[3]], [3], none, []⟩

/-- One cell with total count 0 (`n_counts = [0]`), no `filter_pass` column. -/
def zeroCountAnn : AnnData := ⟨["G1"], [[2]], [0], none, []⟩

/-- A matrix with no cells at all and no `filter_pass` column. -/
def emptyAnn : AnnData := ⟨["G1"], [], [], none, []⟩

/-- One cell that fails the `filter_pass` filter (flag value 0). -/
def noPassAnn : AnnData := ⟨["G1"], [[1]], [1], some [0], []⟩

/-- Two cells, both passing the `filter_pass` filter. -/
def twoCellAnn : AnnData := ⟨["G1"], [[1], [2]], [1, 1], some [1, 1], []⟩

/-- Two cells with `filter_pass = [1, 0]`: only the first passes. -/
def flagAnn : AnnData := ⟨["G1"], [[1], [2]], [1, 2], some [1, 0], []⟩

/-! Helper lemmas about the embedded operations. -/

theorem getD_map_lt {α β : Type} (f : α → β) (l : List α) {i : Nat} (h : i < l.length)
    (d1 : β) (d2 : α) : (l.map f).getD i d1 = f (l.getD i d2) := by
  simp [List.getD_eq_getElem?_getD, List.getElem?_eq_getElem, h]

theorem map_getD_range {α : Type} (l : List α) (d : α) :
    (List.range l.length).map (fun i => l.getD i d) = l := by
  apply List.ext_getElem (by simp)
  intro n h1 h2
  simp [List.getD_eq_getElem?_getD, List.getElem?_eq_getElem, h2]

theorem argsortDesc_perm (v : List ℚ) :
    List.Perm (argsortDesc v) (List.range v.length) :=
  List.perm_insertionSort _ _

theorem argsortDesc_length (v : List ℚ) : (argsortDesc v).length = v.length := by
  simpa using (argsortDesc_perm v).length_eq

theorem argsortDesc_mem (v : List ℚ) {i : Nat} : i ∈ argsortDesc v ↔ i < v.length := by
  rw [(argsortDesc_perm v).mem_iff, List.mem_range]

theorem argsortDesc_nodup (v : List ℚ) : (argsortDesc v).Nodup :=
  ((argsortDesc_perm v).nodup_iff).mpr (List.nodup_range _)

theorem argsortDesc_sorted (v : List ℚ) :
    List.Pairwise (fun i j => v.getD j 0 ≤ v.getD i 0) (argsortDesc v) := by
  haveI htot : IsTotal Nat (fun i j => v.getD j 0 ≤ v.getD i 0) :=
    ⟨fun a b => le_total (v.getD b 0) (v.getD a 0)⟩
  haveI htr : IsTrans Nat (fun i j => v.getD j 0 ≤ v.getD i 0) :=
    ⟨fun _ _ _ hab hbc => le_trans hbc hab⟩
  exact List.sorted_insertionSort _ _

theorem orderedInsert_congr {α : Type} (r1 r2 : α → α → Prop)
    [DecidableRel r1] [DecidableRel r2] (h : ∀ a b, r1 a b ↔ r2 a b) (a : α) :
    ∀ l : List α, l.orderedInsert r1 a = l.orderedInsert r2 a
  | [] => rfl
  | b :: t => by
    by_cases hb : r1 a b
    · rw [List.orderedInsert, List.orderedInsert, if_pos hb, if_pos ((h a b).mp hb)]
    · rw [List.orderedInsert, List.orderedInsert, if_neg hb,
        if_neg (fun hc => hb ((h a b).mpr hc)), orderedInsert_congr r1 r2 h a t]

theorem insertionSort_congr {α : Type} (r1 r2 : α → α → Prop)
    [DecidableRel r1] [DecidableRel r2] (h : ∀ a b, r1 a b ↔ r2 a b) :
    ∀ l : List α, l.insertionSort r1 = l.insertionSort r2
  | [] => rfl
  | b :: t => by
    rw [List.insertionSort, List.insertionSort, insertionSort_congr r1 r2 h t,
      orderedInsert_congr r1 r2 h b]

theorem nonzeroIdx_mem (v : List ℚ) {i : Nat} :
    i ∈ nonzeroIdx v ↔ i < v.length ∧ v.getD i 0 ≠ 0 := by
  simp [nonzeroIdx, List.mem_filter, List.mem_range]

theorem nonzeroIdx_nodup (v : List ℚ) : (nonzeroIdx v).Nodup :=
  List.Nodup.filter _ (List.nodup_range _)

theorem nonzeroIdx_sorted (v : List ℚ) : List.Pairwise (· < ·) (nonzeroIdx v) :=
  (List.pairwise_lt_range _).filter _

theorem nonzeroIdx_length (v : List ℚ) :
    (nonzeroIdx v).length = v.countP (fun x => decide (x ≠ 0)) := by
  rw [nonzeroIdx, ← List.countP_eq_length_filter]
  have h1 : (List.range v.length).countP (fun i => decide (v.getD i 0 ≠ 0))
      = ((List.range v.length).map (fun i => v.getD i 0)).countP (fun x => decide (x ≠ 0)) := by
    rw [List.countP_map]
    rfl
  rw [h1, map_getD_range]

theorem chunkGo_flatten {α : Type} (cs : Nat) :
    ∀ (fuel : Nat) (l : List α), l.length ≤ fuel → (chunkGo cs fuel l).flatten = l := by
  intro fuel
  induction fuel with
  | zero =>
      intro l hl
      rw [List.length_eq_zero.mp (Nat.le_zero.mp hl)]
      rfl
  | succ n ih =>
      intro l hl
      match l with
      | [] => rfl
      | a :: rest =>
          rw [chunkGo, List.flatten_cons, ih (rest.drop (cs - 1)) (by simp at hl ⊢; omega)]
          simp [List.take_append_drop]

theorem chunkList_flatten {α : Type} (cs : Nat) (l : List α) :
    (chunkList cs l).flatten = l :=
  chunkGo_flatten cs l.length l le_rfl

theorem chunkList_flatMap_map {α β : Type} (cs : Nat) (l : List α) (f : α → β) :
    (chunkList cs l).flatMap (fun idx => idx.map f) = l.map f := by
  rw [List.flatMap_def, ← List.map_flatten, chunkList_flatten]

theorem chunkList_eq_nil_iff {α : Type} (cs : Nat) (l : List α) :
    chunkList cs l = [] ↔ l = [] := by
  cases l with
  | nil => simp [chunkList, chunkGo]
  | cons a rest => simp [chunkList, chunkGo]

theorem tokenize_anndata_some_result (C : Catalog) (A : AnnData)
    (attrs : List (String × String)) (ts : ℚ) (cs : Nat) :
    (tokenize_anndata C A (some attrs) ts cs).result =
      .ok ((chunkList cs (filter_pass_loc A)).flatMap
            (fun idx => idx.map (anndataCellTokens C A ts)),
          some (attrs.map (fun kv =>
            (kv.1, (chunkList cs (filter_pass_loc A)).flatMap
              (fun idx => idx.map (fun i => (obsColumn A kv.1).getD i "")))))) := by
  simp only [tokenize_anndata]

theorem tokenize_anndata_none_result (C : Catalog) (A : AnnData) (ts : ℚ) (cs : Nat) :
    (tokenize_anndata C A none ts cs).result =
      if (chunkList cs (filter_pass_loc A)).isEmpty then .error unboundLocalMsg
      else .ok ((chunkList cs (filter_pass_loc A)).flatMap
        (fun idx => idx.map (anndataCellTokens C A ts)), none) := by
  simp only [tokenize_anndata]
  by_cases he : (chunkList cs (filter_pass_loc A)).isEmpty
  · rw [if_pos he, if_pos he]
  · rw [if_neg he, if_neg he]

theorem tokenize_anndata_diag (C : Catalog) (A : AnnData)
    (custom : Option (List (String × String))) (ts : ℚ) (cs : Nat) :
    (tokenize_anndata C A custom ts cs).diag =
      match A.filter_pass with
      | some _ => 0
      | none => 1 := by
  match custom with
  | some attrs => simp only [tokenize_anndata]
  | none =>
      simp only [tokenize_anndata]
      by_cases he : (chunkList cs (filter_pass_loc A)).isEmpty
      · rw [if_pos he]
      · rw [if_neg he]

theorem tokenize_anndata_ok_rows (C : Catalog) (A : AnnData)
    (custom : Option (List (String × String))) (ts : ℚ) (cs : Nat)
    (out : List (List Nat) × Option MetaDict)
    (h : (tokenize_anndata C A custom ts cs).result = .ok out) :
    out.1 = (filter_pass_loc A).map (anndataCellTokens C A ts) := by
  match custom with
  | some attrs =>
      rw [tokenize_anndata_some_result] at h
      rw [← (Except.ok.inj h)]
      exact chunkList_flatMap_map cs (filter_pass_loc A) (anndataCellTokens C A ts)
  | none =>
      rw [tokenize_anndata_none_result] at h
      by_cases he : (chunkList cs (filter_pass_loc A)).isEmpty
      · rw [if_pos he] at h
        exact absurd h (fun hh => Except.noConfusion hh)
      · rw [if_neg he] at h
        rw [← (Except.ok.inj h)]
        exact chunkList_flatMap_map cs (filter_pass_loc A) (anndataCellTokens C A ts)

theorem getD_eq_getElem_of_lt {α : Type} (l : List α) (d : α) {i : Nat} (h : i < l.length) :
    l.getD i d = l[i] := by
  simp [List.getD_eq_getElem?_getD, List.getElem?_eq_getElem, h]

theorem getD_map_mul (c : ℚ) (v : List ℚ) (i : Nat) :
    (v.map (fun x => c * x)).getD i 0 = c * v.getD i 0 := by
  rcases Nat.lt_or_ge i v.length with h | h
  · rw [getD_map_lt _ _ h 0 0]
  · rw [List.getD_eq_default _ _ (by simpa using h), List.getD_eq_default _ _ h, mul_zero]

theorem TokResult.ext2 (x y : TokResult) (h1 : x.diag = y.diag)
    (h2 : x.result = y.result) : x = y := by
  cases x
  cases y
  cases h1
  cases h2
  rfl

theorem chunkList_isEmpty_eq {α : Type} (cs cs2 : Nat) (l : List α) :
    (chunkList cs l).isEmpty = (chunkList cs2 l).isEmpty := by
  cases l <;> rfl

/-! Claim theorems. -/

/-- C1: the code drops every cell: `tokenize_files` initializes
`tokenized_cells = []` and (the accumulation statement being commented out)
returns it untouched, so on a matrix whose streaming source emits one cell —
for which `tokenize_anndata` produces exactly one token sequence, `[7]` — the
list handed to dataset creation is empty instead of having one entry per
cell. -/
theorem C1_tokenize_files_returns_no_cells :
    (tokenize_files Ktest oneCellAnn none).result = .ok ([], none) ∧
    (tokenize_anndata Ktest oneCellAnn none target_sum_default chunk_size_default).result
      = .ok ([[7]], none) := by
  constructor
  · norm_num [tokenize_files, tokenize_anndata, chunkList, chunkGo, filter_pass_loc,
      anndataCellTokens, tokenize_cell, rank_genes, argsortDesc, nonzeroIdx, normRow,
      coding_miRNA_loc, coding_miRNA_tokens, Catalog.eligible, Catalog.geneMedian,
      Catalog.normFactor, Catalog.tokenOf, Catalog.geneToken, oneCellAnn, Ktest,
      target_sum_default, chunk_size_default, List.range_succ, List.getD, List.lookup]
  · norm_num [tokenize_anndata, chunkList, chunkGo, filter_pass_loc,
      anndataCellTokens, tokenize_cell, rank_genes, argsortDesc, nonzeroIdx, normRow,
      coding_miRNA_loc, coding_miRNA_tokens, Catalog.eligible, Catalog.geneMedian,
      Catalog.normFactor, Catalog.tokenOf, Catalog.geneToken, oneCellAnn, Ktest,
      target_sum_default, chunk_size_default, List.range_succ, List.getD, List.lookup]

/-- C4 counterexample: a cell whose total count is zero is neither rejected
with an error nor excluded: `tokenize_anndata` still returns `ok` and emits a
row for that cell (the division is performed with no guard; the rational
model's total division, like IEEE arithmetic, raises nothing). -/
theorem C4_zero_total_count_not_rejected :
    zeroCountAnn.n_counts.getD 0 0 = 0 ∧
    (filter_pass_loc zeroCountAnn).length = 1 ∧
    (tokenize_anndata Ktest zeroCountAnn none 10000 512).result = .ok ([[]], none) := by
  refine ⟨by decide, by decide, ?_⟩
  norm_num [tokenize_anndata, chunkList, chunkGo, filter_pass_loc,
    anndataCellTokens, tokenize_cell, rank_genes, argsortDesc, nonzeroIdx, normRow,
    coding_miRNA_loc, coding_miRNA_tokens, Catalog.eligible, Catalog.geneMedian,
    Catalog.normFactor, Catalog.tokenOf, Catalog.geneToken, zeroCountAnn, Ktest,
    List.range_succ, List.getD, List.lookup]

/-- C4 (amended): normalization applies no guard to the total count: whenever
`tokenize_anndata` returns, every included cell — including any with zero or
negative `n_counts` — contributes exactly one row; no DomainError exists in
the code. -/
theorem C4_no_total_count_guard (C : Catalog) (A : AnnData)
    (custom : Option (List (String × String))) (ts : ℚ) (cs : Nat)
    (out : List (List Nat) × Option MetaDict)
    (h : (tokenize_anndata C A custom ts cs).result = .ok out) :
    out.1.length = (filter_pass_loc A).length := by
  rw [tokenize_anndata_ok_rows C A custom ts cs out h, List.length_map]

/-- C4 witness: the zero-total-count matrix instantiates the amended theorem. -/
theorem C4_no_total_count_guard_witness :
    (tokenize_anndata Ktest zeroCountAnn none 10000 512).result = .ok ([[]], none) ∧
    ([([] : List Nat)], (none : Option MetaDict)).1.length
      = (filter_pass_loc zeroCountAnn).length := by
  have hok : (tokenize_anndata Ktest zeroCountAnn none 10000 512).result = .ok ([[]], none) := by
    norm_num [tokenize_anndata, chunkList, chunkGo, filter_pass_loc,
      anndataCellTokens, tokenize_cell, rank_genes, argsortDesc, nonzeroIdx, normRow,
      coding_miRNA_loc, coding_miRNA_tokens, Catalog.eligible, Catalog.geneMedian,
      Catalog.normFactor, Catalog.tokenOf, Catalog.geneToken, zeroCountAnn, Ktest,
      List.range_succ, List.getD, List.lookup]
  exact ⟨hok, C4_no_total_count_guard Ktest zeroCountAnn none 10000 512 ([[]], none) hok⟩

/-- C5: the chunked traversal is invariant under the chunk size: for any
`chunk_size ≥ 1` the full result (token rows and metadata rows alike, in
order) equals processing all included cells in one single chunk (a chunk size
larger than the number of included cells). -/
theorem C5_chunking_invariance (C : Catalog) (A : AnnData)
    (custom : Option (List (String × String))) (ts : ℚ) (cs : Nat) (_hcs : 1 ≤ cs) :
    tokenize_anndata C A custom ts cs
      = tokenize_anndata C A custom ts ((filter_pass_loc A).length + 1) := by
  apply TokResult.ext2
  · rw [tokenize_anndata_diag, tokenize_anndata_diag]
  · match custom with
    | some attrs =>
        rw [tokenize_anndata_some_result, tokenize_anndata_some_result]
        simp only [chunkList_flatMap_map]
    | none =>
        rw [tokenize_anndata_none_result, tokenize_anndata_none_result,
          chunkList_isEmpty_eq cs ((filter_pass_loc A).length + 1) (filter_pass_loc A)]
        simp only [chunkList_flatMap_map]

/-- C5 witness: chunk size 1 versus one single chunk on a two-cell matrix. -/
theorem C5_chunking_invariance_witness :
    1 ≤ 1 ∧
    tokenize_anndata Ktest twoCellAnn none 10000 1
      = tokenize_anndata Ktest twoCellAnn none 10000 ((filter_pass_loc twoCellAnn).length + 1) :=
  ⟨le_rfl, C5_chunking_invariance Ktest twoCellAnn none 10000 1 le_rfl⟩

/-- C6: `create_dataset` crops every row to its first 2048 tokens (a prefix
take), records `length = min 2048 (original length)` — the post-truncation
length — and drops no row, zero-length rows included. -/
theorem C6_truncation_policy (tokenized_cells : List (List Nat)) :
    create_dataset tokenized_cells
        = tokenized_cells.map (fun r => (r.take 2048, min 2048 r.length)) ∧
    (create_dataset tokenized_cells).length = tokenized_cells.length := by
  constructor
  · rw [create_dataset]
    apply List.map_congr_left
    intro r _
    simp [format_cell_features, List.length_take]
  · simp [create_dataset]

/-- C10: with `custom_attr_name_dict = None` and an empty set of included
cells, the chunk loop body never runs, `file_cell_metadata` is never assigned,
and `tokenize_anndata` raises an unbound-local error at its `return` instead
of returning an empty result. -/
theorem C10_unbound_local_on_empty (C : Catalog) (A : AnnData) (ts : ℚ) (cs : Nat)
    (h : filter_pass_loc A = []) :
    (tokenize_anndata C A none ts cs).result = .error unboundLocalMsg := by
  rw [tokenize_anndata_none_result, h]
  rfl

/-- C10 witness: a matrix whose single cell fails `filter_pass`, so no cell is
included and the per-file tokenization errors out. -/
theorem C10_unbound_local_witness :
    filter_pass_loc noPassAnn = [] ∧
    (tokenize_anndata Ktest noPassAnn none 10000 512).result = .error unboundLocalMsg :=
  ⟨by decide, C10_unbound_local_on_empty Ktest noPassAnn 10000 512 (by decide)⟩

/-- C2: the eligible-column index list is strictly increasing (relative order
preserved), a column index belongs to it exactly when its gene identifier is
in the catalog (absent identifiers are excluded), position `k` of the
normalized row holds `raw[j] / total_count * target_sum / normFactor(gids[j])`
for `j` the `k`-th eligible column, and the pipeline default target sum is
10,000. -/
theorem C2_normalization_formula (C : Catalog) (gids : List String) (raw : List ℚ)
    (n ts : ℚ) :
    List.Pairwise (· < ·) (coding_miRNA_loc C gids) ∧
    (∀ j : Nat, j ∈ coding_miRNA_loc C gids ↔ j < gids.length ∧ C.eligible (gids.getD j "")) ∧
    (∀ k : Nat, k < (coding_miRNA_loc C gids).length →
      (normRow C gids raw n ts).getD k 0 =
        raw.getD ((coding_miRNA_loc C gids).getD k 0) 0 / n * ts
          / C.normFactor (gids.getD ((coding_miRNA_loc C gids).getD k 0) "")) ∧
    target_sum_default = 10000 := by
  refine ⟨(List.pairwise_lt_range _).filter _, ?_, ?_, rfl⟩
  · intro j
    simp [coding_miRNA_loc, List.mem_filter, List.mem_range]
  · intro k hk
    rw [normRow, getD_map_lt _ _ hk 0 0]

/-- C2 witness: a two-column matrix whose first gene is absent from the
catalog; the surviving column is normalized by the claimed formula. -/
theorem C2_normalization_formula_witness :
    (0 : Nat) < (coding_miRNA_loc Ktest ["GX", "G1"]).length ∧
    (normRow Ktest ["GX", "G1"] [5, 4] 2 10000).getD 0 0 =
      ([(5 : ℚ), 4]).getD ((coding_miRNA_loc Ktest ["GX", "G1"]).getD 0 0) 0 / 2 * 10000
        / Ktest.normFactor (["GX", "G1"].getD ((coding_miRNA_loc Ktest ["GX", "G1"]).getD 0 0) "") :=
  ⟨by decide,
    (C2_normalization_formula Ktest ["GX", "G1"] [5, 4] 2 10000).2.2.1 0 (by decide)⟩

/-- C3: the token sequence of a cell contains only catalog tokens, each at
most once, its length is the number of strictly positive entries of the
(nonnegative) normalized vector, and it is the image under the aligned token
vector of the nonzero positions ordered by descending normalized value. -/
theorem C3_token_sequence_shape (C : Catalog) (v : List ℚ) (toks : List Nat)
    (hlen : toks.length = v.length)
    (hnn : ∀ x ∈ v, 0 ≤ x)
    (htab : ∀ t ∈ toks, t ∈ C.tokenTable)
    (hnd : toks.Nodup) :
    (∀ t ∈ tokenize_cell v toks, t ∈ C.tokenTable) ∧
    (tokenize_cell v toks).Nodup ∧
    (tokenize_cell v toks).length = v.countP (fun x => decide (0 < x)) ∧
    tokenize_cell v toks = (cellRankIdx v).map (fun i => toks.getD i 0) ∧
    List.Sorted (· ≥ ·) ((cellRankIdx v).map (fun i => v.getD i 0)) := by
  have hσmem : ∀ k ∈ argsortDesc ((nonzeroIdx v).map (fun i => v.getD i 0)),
      k < (nonzeroIdx v).length := by
    intro k hk
    have h := (argsortDesc_mem _).mp hk
    rwa [List.length_map] at h
  have h4 : tokenize_cell v toks = (cellRankIdx v).map (fun i => toks.getD i 0) := by
    rw [tokenize_cell, rank_genes, cellRankIdx, List.map_map]
    apply List.map_congr_left
    intro k hk
    have hk2 := hσmem k hk
    rw [getD_map_lt _ _ hk2 0 0]
    rfl
  have hcr_mem : ∀ i ∈ cellRankIdx v, i ∈ nonzeroIdx v := by
    intro i hi
    rw [cellRankIdx] at hi
    obtain ⟨k, hk, rfl⟩ := List.mem_map.mp hi
    have hk2 := hσmem k hk
    rw [getD_eq_getElem_of_lt _ _ hk2]
    exact List.getElem_mem hk2
  have hcr_lt : ∀ i ∈ cellRankIdx v, i < v.length := by
    intro i hi
    exact ((nonzeroIdx_mem v).mp (hcr_mem i hi)).1
  have hcrnd : (cellRankIdx v).Nodup := by
    rw [cellRankIdx]
    apply List.Nodup.map_on _ (argsortDesc_nodup _)
    intro k1 h1 k2 h2 he
    have hk1 := hσmem k1 h1
    have hk2 := hσmem k2 h2
    rw [getD_eq_getElem_of_lt _ _ hk1, getD_eq_getElem_of_lt _ _ hk2] at he
    exact ((nonzeroIdx_nodup v).getElem_inj_iff).mp he
  refine ⟨?_, ?_, ?_, h4, ?_⟩
  · intro t ht
    rw [h4] at ht
    obtain ⟨i, hi, rfl⟩ := List.mem_map.mp ht
    have hlt : i < toks.length := by
      rw [hlen]
      exact hcr_lt i hi
    rw [getD_eq_getElem_of_lt _ _ hlt]
    exact htab _ (List.getElem_mem hlt)
  · rw [h4]
    apply List.Nodup.map_on _ hcrnd
    intro i1 h1 i2 h2 he
    have hl1 : i1 < toks.length := by rw [hlen]; exact hcr_lt i1 h1
    have hl2 : i2 < toks.length := by rw [hlen]; exact hcr_lt i2 h2
    rw [getD_eq_getElem_of_lt _ _ hl1, getD_eq_getElem_of_lt _ _ hl2] at he
    exact (hnd.getElem_inj_iff).mp he
  · rw [h4, List.length_map, cellRankIdx, List.length_map, argsortDesc_length,
      List.length_map, nonzeroIdx_length]
    apply List.countP_congr
    intro x hx
    simp only [decide_eq_true_eq]
    exact ⟨fun h => lt_of_le_of_ne (hnn x hx) (Ne.symm h), fun h => ne_of_gt h⟩
  · have h5 : (cellRankIdx v).map (fun i => v.getD i 0)
        = (argsortDesc ((nonzeroIdx v).map (fun i => v.getD i 0))).map
            (fun k => ((nonzeroIdx v).map (fun i => v.getD i 0)).getD k 0) := by
      rw [cellRankIdx, List.map_map]
      apply List.map_congr_left
      intro k hk
      have hk2 := hσmem k hk
      simp only [Function.comp]
      rw [getD_map_lt _ _ hk2 0 0]
    rw [h5]
    exact List.pairwise_map.mpr (argsortDesc_sorted _)

/-- C3 witness: a three-gene cell with one zero entry against the catalog
`KtestABC`; its token sequence has length 2, the number of positive entries. -/
theorem C3_token_sequence_shape_witness :
    (([4, 9, 2] : List Nat).length = ([(1 : ℚ), 3, 0]).length) ∧
    (tokenize_cell [(1 : ℚ), 3, 0] [4, 9, 2]).length
      = ([(1 : ℚ), 3, 0]).countP (fun x => decide (0 < x)) :=
  ⟨by decide,
    (C3_token_sequence_shape KtestABC [1, 3, 0] [4, 9, 2] (by decide) (by decide)
      (by decide) (by decide)).2.2.1⟩

/-- C7: uniform positive scaling of the expression vector leaves the returned
token order unchanged: ranking is scale-invariant under any factor `c > 0`. -/
theorem C7_scale_invariance (v : List ℚ) (toks : List Nat) (c : ℚ) (hc : 0 < c) :
    tokenize_cell (v.map (fun x => c * x)) toks = tokenize_cell v toks := by
  have hsort : ∀ w : List ℚ, argsortDesc (w.map (fun x => c * x)) = argsortDesc w := by
    intro w
    rw [argsortDesc, argsortDesc, List.length_map]
    apply insertionSort_congr
    intro i j
    rw [getD_map_mul, getD_map_mul]
    exact mul_le_mul_left hc
  have hmask : nonzeroIdx (v.map (fun x => c * x)) = nonzeroIdx v := by
    rw [nonzeroIdx, nonzeroIdx, List.length_map]
    apply List.filter_congr
    intro i _
    rw [decide_eq_decide, getD_map_mul]
    constructor
    · intro h hx
      exact h (by rw [hx, mul_zero])
    · intro h hx
      exact h ((mul_eq_zero.mp hx).resolve_left (ne_of_gt hc))
  have hvals : (nonzeroIdx v).map (fun i => (v.map (fun x => c * x)).getD i 0)
      = ((nonzeroIdx v).map (fun i => v.getD i 0)).map (fun x => c * x) := by
    rw [List.map_map]
    apply List.map_congr_left
    intro i _
    simp only [Function.comp]
    rw [getD_map_mul]
  rw [tokenize_cell, tokenize_cell, hmask, hvals, rank_genes, rank_genes, hsort]

/-- C7 witness: doubling the vector `[1, 3]` leaves the token order `[9, 4]`
unchanged. -/
theorem C7_scale_invariance_witness :
    (0 : ℚ) < 2 ∧
    tokenize_cell ([(1 : ℚ), 3].map (fun x => 2 * x)) [4, 9]
      = tokenize_cell [(1 : ℚ), 3] [4, 9] :=
  ⟨by norm_num, C7_scale_invariance [1, 3] [4, 9] 2 (by norm_num)⟩

/-- C9 (amended): with a `filter_pass` column, exactly the cells whose flag
equals 1 are processed (in order) and no fallback diagnostic is printed;
without the column, all cells are processed and the diagnostic is printed
exactly once per matrix — and the call returns without error provided some
cell is included or metadata attributes are configured (otherwise the
unbound-local defect of the `return` statement fires). -/
theorem C9_filter_flag_behavior (C : Catalog) (A : AnnData)
    (custom : Option (List (String × String))) (ts : ℚ) (cs : Nat) (_hcs : 1 ≤ cs) :
    (A.filter_pass = none → (tokenize_anndata C A custom ts cs).diag = 1
      ∧ filter_pass_loc A = List.range A.X.length) ∧
    (∀ fp, A.filter_pass = some fp → (tokenize_anndata C A custom ts cs).diag = 0
      ∧ filter_pass_loc A
          = (List.range fp.length).filter (fun i => decide (fp.getD i 0 = 1))) ∧
    (∀ out, (tokenize_anndata C A custom ts cs).result = .ok out →
      out.1 = (filter_pass_loc A).map (anndataCellTokens C A ts)) ∧
    (filter_pass_loc A ≠ [] ∨ custom ≠ none →
      ∃ out, (tokenize_anndata C A custom ts cs).result = .ok out) := by
  refine ⟨?_, ?_, fun out h => tokenize_anndata_ok_rows C A custom ts cs out h, ?_⟩
  · intro h
    rw [tokenize_anndata_diag, filter_pass_loc, h]
    exact ⟨rfl, rfl⟩
  · intro fp h
    rw [tokenize_anndata_diag, filter_pass_loc, h]
    exact ⟨rfl, rfl⟩
  · intro h
    match custom with
    | some attrs => exact ⟨_, tokenize_anndata_some_result C A attrs ts cs⟩
    | none =>
        have hne : filter_pass_loc A ≠ [] := by
          rcases h with h | h
          · exact h
          · exact absurd rfl h
        have hemp : (chunkList cs (filter_pass_loc A)).isEmpty = false := by
          rw [List.isEmpty_eq_false_iff_exists_mem]
          rcases List.exists_mem_of_ne_nil _ ((chunkList_eq_nil_iff cs _).not.mpr hne
            |> fun hh => by
              intro hc
              exact hne ((chunkList_eq_nil_iff cs _).mp hc)) with ⟨x, hx⟩
          exact ⟨x, hx⟩
        rw [tokenize_anndata_none_result, if_neg (by rw [hemp]; exact Bool.false_ne_true)]
        exact ⟨_, rfl⟩

/-- C9 counterexample: a flagless matrix with zero cells prints the fallback
diagnostic once but then raises (unbound local) instead of returning — the
claim's unconditional "no error is raised" fails at this input. -/
theorem C9_flagless_empty_matrix_errors :
    emptyAnn.filter_pass = none ∧
    (tokenize_anndata Ktest emptyAnn none 10000 512).diag = 1 ∧
    (tokenize_anndata Ktest emptyAnn none 10000 512).result = .error unboundLocalMsg :=
  ⟨rfl, by decide, by decide⟩

/-- C9 witness: a two-cell matrix with `filter_pass = [1, 0]`; the diagnostic
count is 0 and the included-cell index list keeps exactly the flag-1 cells. -/
theorem C9_filter_flag_behavior_witness :
    (1 : Nat) ≤ 512 ∧
    (tokenize_anndata Ktest flagAnn none 10000 512).diag = 0 ∧
    filter_pass_loc flagAnn
      = (List.range ([(1 : ℚ), 0]).length).filter
          (fun i => decide (([(1 : ℚ), 0]).getD i 0 = 1)) := by
  have h := (C9_filter_flag_behavior Ktest flagAnn none 10000 512 (by norm_num)).2.1
    [1, 0] rfl
  exact ⟨by norm_num, h.1, h.2⟩

end AmcTokenise
